import Mathlib

/-!
Verification of the promotional-banner-scraper repository
(`scrape_novadreams.py`, `banner_extractor.py`).

Modelling conventions:
* Python strings are `List Char` (`Str`); `s1 in s2` is `pyIn`,
  `str.lower()` is `pyLower` (ASCII case folding — all data the scraper
  handles is ASCII).
* Python byte strings are `List Nat`, one entry per byte; slicing
  `b[i:j]` is `(List.drop i b).take (j - i)`, which like Python clamps
  at the end of the buffer.
* The float comparisons `0.8 <= w/h <= 8.0` and `1.2 <= w/h <= 6.0`
  are modelled with exact rational arithmetic; this agrees with the
  IEEE double evaluation for every dimension pair the scraper can
  encounter (HTML attribute magnitudes far below 2^50).
* Fallible operations return `Option`; `try/except` blocks that fall
  back to a default are modelled by returning that default.
-/

/-- Python strings, modelled as lists of characters. -/
abbrev Str := List Char

/-- Python's substring test `needle in hay` (contiguous substring). -/
def pyIn (needle : Str) : Str → Bool
  | [] => needle.isEmpty
  | c :: rest => needle.isPrefixOf (c :: rest) || pyIn needle rest

/-- Python's `str.lower()`, ASCII case folding. -/
def pyLower (s : Str) : Str := s.map Char.toLower

/-- One image record of `scrape_novadreams.py` (the dict literals built in
`ImageHTMLParser.handle_starttag`, the bs4 loop in `scrape_banners`, and
`extract_css_bg_images`). -/
structure Img where
  url : Str
  alt : Str := []
  title : Str := []
  /-- the `"class"` key of the dict -/
  cls : Str := []
  width : Int := 0
  height : Int := 0
  srcset : List Str := []
  context : Str := []
  tag : Str := []
deriving DecidableEq, Repr

/-- `PROMO_KEYWORDS` from `scrape_novadreams.py`. -/
def PROMO_KEYWORDS : List Str :=
  ["banner", "promo", "promotion", "offer", "welcome", "deposit",
   "free", "spin", "jackpot", "casino", "bet", "win", "reward",
   "special", "exclusive", "limited", "cashback", "match", "reload",
   "bonus", "hero", "slider", "carousel", "campaign", "featured",
   "cta", "signup", "sign-up", "register", "deal", "tournament"].map String.data

/-- `SKIP_PATTERNS` from `scrape_novadreams.py` (the URL denylist). -/
def SKIP_PATTERNS : List Str :=
  ["favicon", "icon-", "logo-small", "pixel", "spacer",
   "1x1", "tracking", "analytics", "badge", ".svg",
   "emoji", "avatar", "flag-", "payment-", "visa", "mastercard"].map String.data

/-- The URL indicator list inlined in `is_banner_candidate`. -/
def URL_INDICATORS : List Str :=
  ["banner", "promo", "bonus", "offer", "campaign", "hero", "slide"].map String.data

/-- The `text` variable of `is_banner_candidate`:
`f"{img['alt']} {img['title']} {img['class']} {img['url']} {img['context']}".lower()`. -/
def nd_text (img : Img) : Str :=
  pyLower (img.alt ++ " ".data ++ img.title ++ " ".data ++ img.cls ++ " ".data ++
    img.url ++ " ".data ++ img.context)

/-- `has_keyword` of `is_banner_candidate`. -/
def nd_has_keyword (img : Img) : Bool :=
  PROMO_KEYWORDS.any (fun kw => pyIn kw (nd_text img))

/-- `has_promo_url` of `is_banner_candidate`. -/
def nd_has_promo_url (img : Img) : Bool :=
  URL_INDICATORS.any (fun ind => pyIn ind (pyLower img.url))

/-- `size_ok` of `is_banner_candidate`: when both dimensions are known
(positive) it requires `w >= 200 and h >= 80` and `0.8 <= w/h <= 8.0`,
otherwise it is `True`. -/
def nd_size_ok (img : Img) : Bool :=
  if 0 < img.width ∧ 0 < img.height then
    decide (200 ≤ img.width ∧ 80 ≤ img.height) &&
    decide ((4 : ℚ)/5 ≤ (img.width : ℚ) / (img.height : ℚ) ∧
            (img.width : ℚ) / (img.height : ℚ) ≤ 8)
  else true

/-- `is_banner_candidate` from `scrape_novadreams.py`. -/
def is_banner_candidate (img : Img) (include_all : Bool) : Bool :=
  if SKIP_PATTERNS.any (fun s => pyIn s (pyLower img.url)) then false
  else if include_all then true
  else (nd_has_keyword img || nd_has_promo_url img) && nd_size_ok img

/-- One `banner_data` dict of `banner_extractor.py`. -/
structure BannerData where
  url : Str
  alt : Str := []
  title : Str := []
  cls : Str := []
  width : Int := 0
  height : Int := 0
deriving DecidableEq, Repr

/-- `self.promo_keywords` of `SimpleBannerExtractor`. -/
def BE_PROMO_KEYWORDS : List Str :=
  ["bonus", "promo", "promotion", "offer", "welcome", "deposit",
   "free", "spin", "jackpot", "casino", "bet", "win", "reward",
   "special", "exclusive", "limited", "cashback", "match", "reload"].map String.data

/-- The `url_indicators` list inlined in `_is_promotional_banner`. -/
def BE_URL_INDICATORS : List Str :=
  ["banner", "promo", "bonus", "offer", "campaign"].map String.data

/-- `text` of `_is_promotional_banner`. -/
def be_text (b : BannerData) : Str :=
  pyLower (b.alt ++ " ".data ++ b.title ++ " ".data ++ b.cls ++ " ".data ++ b.url)

/-- `has_promo_keywords` of `_is_promotional_banner`. -/
def be_has_keyword (b : BannerData) : Bool :=
  BE_PROMO_KEYWORDS.any (fun kw => pyIn kw (be_text b))

/-- `has_promo_url` of `_is_promotional_banner`. -/
def be_has_promo_url (b : BannerData) : Bool :=
  BE_URL_INDICATORS.any (fun ind => pyIn ind (pyLower b.url))

/-- `size_ok` of `_is_promotional_banner`: with known dimensions it
requires `w >= self.min_width and h >= self.min_height` and the
banner-shape test `1.2 <= w/h <= 6.0`, otherwise `True`. -/
def be_size_ok (min_width min_height : Int) (b : BannerData) : Bool :=
  if 0 < b.width ∧ 0 < b.height then
    decide (min_width ≤ b.width ∧ min_height ≤ b.height) &&
    decide ((6 : ℚ)/5 ≤ (b.width : ℚ) / (b.height : ℚ) ∧
            (b.width : ℚ) / (b.height : ℚ) ≤ 6)
  else true

/-- `SimpleBannerExtractor._is_promotional_banner`, with the configurable
`self.min_width` / `self.min_height` as parameters. -/
def is_promotional_banner (min_width min_height : Int) (b : BannerData) : Bool :=
  (be_has_keyword b || be_has_promo_url b) && be_size_ok min_width min_height b

/-- The deduplication loop of `scrape_banners` (`seen_urls` set plus
`unique` list): a record is kept only when its URL was not seen before. -/
def dedupAux (seen : List Str) : List Img → List Img
  | [] => []
  | img :: rest =>
    if img.url ∈ seen then dedupAux seen rest
    else img :: dedupAux (img.url :: seen) rest

/-- `unique` as computed by `scrape_banners` from the `all_found` list. -/
def dedup (imgs : List Img) : List Img := dedupAux [] imgs

/-- The source channels present among the candidates for a given URL:
the deduplicated list of `tag` values. The code keeps a single `tag`
string per record; this is the only source-channel data a candidate
carries. -/
def channelsOf (cs : List Img) (u : Str) : List Str :=
  ((cs.filter (fun c => decide (c.url = u))).map (fun c => c.tag)).dedup

/-- A keyword-rich candidate whose 300x10 shape (ratio 30) is outside
both bound pairs. -/
def exC1 : Img :=
  { url := "https://example.com/banner-promo.jpg".data,
    alt := "welcome bonus".data, width := 300, height := 10 }

/-- The same candidate as `BannerData` for the extractor variant. -/
def exC1b : BannerData :=
  { url := "https://example.com/banner-promo.jpg".data,
    alt := "welcome bonus".data, width := 300, height := 10 }

/-- A favicon URL that also matches promo keywords. -/
def exC2 : Img :=
  { url := "https://example.com/promo/favicon.png".data,
    alt := "welcome bonus banner".data }

/-- Two sightings of the same URL through two different channels. -/
def cexR1 : Img :=
  { url := "https://example.com/promo/banner.jpg".data, tag := "img".data }

/-- Second sighting of the same URL, from a `<source>` element. -/
def cexR2 : Img :=
  { url := "https://example.com/promo/banner.jpg".data, tag := "source".data }

/-- A first sighting with unknown dimensions. -/
def c4r1 : Img := { url := "https://example.com/a.jpg".data }

/-- A later sighting of the same URL that carries the dimensions. -/
def c4r2 : Img :=
  { url := "https://example.com/a.jpg".data, alt := "Welcome".data,
    width := 500, height := 200 }

/-! ### URL resolution (model of `urllib.parse.urljoin`) -/

/-- Scheme names for which `urljoin` performs relative resolution
(CPython's `uses_relative`). -/
def usesRelative : List Str :=
  ["", "ftp", "http", "gopher", "nntp", "imap", "wais", "file", "https",
   "shttp", "mms", "prospero", "rtsp", "rtspu", "sftp", "svn", "svn+ssh",
   "ws", "wss"].map String.data

/-- Is `c` legal inside a URL scheme? -/
def schemeChar (c : Char) : Bool := c.isAlphanum || c = '+' || c = '-' || c = '.'

/-- Split off a leading `scheme:` (lower-cased), as `urlsplit` does: the
part before the first colon qualifies when it is nonempty, starts with a
letter and contains only scheme characters. -/
def splitScheme (u : Str) : Option (Str × Str) :=
  if (u.takeWhile (fun c => c ≠ ':')).length < u.length then
    match u.takeWhile (fun c => c ≠ ':') with
    | [] => none
    | c :: rest =>
      if c.isAlpha && (c :: rest).all schemeChar then
        some (pyLower (c :: rest), u.drop ((c :: rest).length + 1))
      else none
  else none

/-- Split the part after `scheme:` into `(netloc, path)`. -/
def splitNetloc (rest : Str) : Str × Str :=
  if "//".data.isPrefixOf rest then
    ((rest.drop 2).takeWhile (fun c => c ≠ '/'),
     (rest.drop 2).dropWhile (fun c => c ≠ '/'))
  else ([], rest)

/-- The `//netloc` fragment to re-emit when joining, empty when the base
has no netloc. -/
def netlocPartOf (rest : Str) : Str :=
  if "//".data.isPrefixOf rest then "//".data ++ (splitNetloc rest).1 else []

/-- The path component of the part after `scheme:`. -/
def pathPartOf (rest : Str) : Str := (splitNetloc rest).2

/-- The directory part of a path: everything up to and including the
last slash, `/` when the path has none. -/
def dirOf (path : Str) : Str :=
  if '/' ∈ path then (path.reverse.dropWhile (fun c => c ≠ '/')).reverse
  else "/".data

/-- The netloc/path merging branch of `urljoin`: join a scheme-less
reference `u` against a base split into scheme part, netloc part and
path. -/
def joinRel (schemePart netlocPart bpath u : Str) : Str :=
  if "//".data.isPrefixOf u then schemePart ++ u
  else if "/".data.isPrefixOf u then schemePart ++ (netlocPart ++ u)
  else schemePart ++ (netlocPart ++ (dirOf bpath ++ u))

/-- Model of `urllib.parse.urljoin`, the stdlib collaborator used for
all URL resolution (spec 4.1: "standard relative-URL-to-absolute-URL
joining").  Restricted to scheme/netloc/path joining; query/fragment
special cases and dot-segment normalization are not modelled — no claim
depends on them. -/
def urljoin (base url : Str) : Str :=
  if base = [] then url
  else if url = [] then base
  else
    match splitScheme base, splitScheme url with
    | some (bs, brest), some (us, urest) =>
      if us = bs ∧ us ∈ usesRelative then
        joinRel (bs ++ ":".data) (netlocPartOf brest) (pathPartOf brest) urest
      else url
    | some (bs, brest), none =>
      if bs ∈ usesRelative then
        joinRel (bs ++ ":".data) (netlocPartOf brest) (pathPartOf brest) url
      else url
    | none, some _ => url
    | none, none => joinRel [] (netlocPartOf base) (pathPartOf base) url

/-- `ImageHTMLParser._resolve`: empty and `data:` URLs resolve to the
empty string, everything else joins against the base URL. -/
def resolveUrl (base u : Str) : Str :=
  if u = [] ∨ "data:".data.isPrefixOf u then [] else urljoin base u

/-! ### Attribute parsing helpers -/

/-- Python `str.replace("px", "")`. -/
def removePx (s : Str) : Str :=
  match s with
  | [] => []
  | c :: rest =>
    if "px".data.isPrefixOf (c :: rest) then removePx (rest.drop 1)
    else c :: removePx rest
termination_by s.length
decreasing_by
  · simp only [List.length_cons]
    have := List.length_drop 1 rest
    omega
  · simp only [List.length_cons]; omega

/-- Python `str.strip()`. -/
def pyStrip (s : Str) : Str :=
  ((s.dropWhile Char.isWhitespace).reverse.dropWhile Char.isWhitespace).reverse

/-- Numeric value of an ASCII digit character. -/
def digitVal (c : Char) : Nat := c.toNat - 48

/-- Value of a decimal digit string. -/
def digitsToNat (ds : Str) : Nat := ds.foldl (fun a c => 10 * a + digitVal c) 0

/-- Python `int(s)` on optionally signed decimal strings (with
surrounding whitespace); `none` models `ValueError`.  Underscore digit
separators are not modelled. -/
def parseIntOpt (s : Str) : Option Int :=
  match pyStrip s with
  | '-' :: ds =>
    if ds ≠ [] ∧ ds.all Char.isDigit = true then some (-(digitsToNat ds : Int)) else none
  | '+' :: ds =>
    if ds ≠ [] ∧ ds.all Char.isDigit = true then some ((digitsToNat ds : Int)) else none
  | ds =>
    if ds ≠ [] ∧ ds.all Char.isDigit = true then some ((digitsToNat ds : Int)) else none

/-- `ImageHTMLParser._parse_dim` and `SimpleBannerExtractor._get_dimension`:
dimension attribute to integer, 0 on a missing/empty/unparsable value
(both helpers compute `int(str(val).replace("px", ""))` with errors
mapped to 0). -/
def parse_dim (v : Option Str) : Int :=
  match v with
  | none => 0
  | some s => if s = [] then 0 else (parseIntOpt (removePx s)).getD 0

/-! ### Image reference extraction -/

/-- The attributes of one `<img>` element that the extractors read
(missing string attributes default to `""` as in `attr.get(..., "")`;
dimension attributes keep their missing/present distinction). -/
structure ImgAttrs where
  src : Str := []
  dataSrc : Str := []
  dataLazySrc : Str := []
  alt : Str := []
  title : Str := []
  cls : Str := []
  width : Option Str := none
  height : Option Str := none
  srcset : Str := []
deriving DecidableEq, Repr

/-- The token taken from one srcset entry: the stripped part up to the
first whitespace (`part.split()[0]`). -/
def srcsetTok (part : Str) : Str :=
  (pyStrip part).takeWhile (fun c => ¬ c.isWhitespace)

/-- Python `str.split(sep)` for a one-character separator (keeps empty
pieces, as Python does). -/
def pySplitOn (sep : Char) : Str → List Str
  | [] => [[]]
  | x :: rest =>
    if x = sep then [] :: pySplitOn sep rest
    else
      match pySplitOn sep rest with
      | [] => [[x]]
      | p :: ps => (x :: p) :: ps

/-- `ImageHTMLParser._parse_srcset`: split on commas, strip, take the
token before the first whitespace, resolve it, and keep the nonempty
resolutions. -/
def parse_srcset (base srcset : Str) : List Str :=
  if srcset = [] then []
  else
    (pySplitOn ',' srcset).filterMap (fun part =>
      if pyStrip part = [] then none
      else if resolveUrl base (srcsetTok part) = [] then none
      else some (resolveUrl base (srcsetTok part)))

/-- `src` as resolved by the `<img>` branch of `handle_starttag`. -/
def nd_src (base : Str) (a : ImgAttrs) : Str := resolveUrl base a.src

/-- `data_src` as resolved by the `<img>` branch of `handle_starttag`
(`attr.get("data-src", "") or attr.get("data-lazy-src", "")`). -/
def nd_data_src (base : Str) (a : ImgAttrs) : Str :=
  resolveUrl base (if a.dataSrc ≠ [] then a.dataSrc else a.dataLazySrc)

/-- The `<img>` branch of `ImageHTMLParser.handle_starttag`: the records
appended to `self.images` for one `img` element (`ctx` is the joined
context string). -/
def imgRefs (base ctx : Str) (a : ImgAttrs) : List Img :=
  if nd_src base a ≠ [] ∨ nd_data_src base a ≠ [] then
    [{ url := if nd_src base a ≠ [] then nd_src base a else nd_data_src base a,
       alt := a.alt, title := a.title, cls := a.cls,
       width := parse_dim a.width, height := parse_dim a.height,
       srcset := parse_srcset base a.srcset,
       context := ctx, tag := "img".data }]
  else []

/-- The source chain of the bs4 `<img>` loop in `scrape_banners`:
`img.get("src") or img.get("data-src") or img.get("data-lazy-src") or ""`. -/
def bs4_src (a : ImgAttrs) : Str :=
  if a.src ≠ [] then a.src
  else if a.dataSrc ≠ [] then a.dataSrc
  else a.dataLazySrc

/-- One iteration of the bs4 `<img>` loop in `scrape_banners`
(`parentCls` models the joined ancestor class string): the primary
record plus one record per srcset entry, or nothing when the source is
empty or a data URI. -/
def bs4ImgRefs (base parentCls : Str) (a : ImgAttrs) : List Img :=
  if bs4_src a = [] ∨ "data:".data.isPrefixOf (bs4_src a) then []
  else
    { url := urljoin base (bs4_src a), alt := a.alt, title := a.title,
      cls := a.cls, width := parse_dim a.width, height := parse_dim a.height,
      srcset := [], context := parentCls, tag := "img".data } ::
    (parse_srcset base a.srcset).map (fun u =>
      { url := u, alt := a.alt, context := parentCls, tag := "img[srcset]".data })

/-- The attributes of one `<img>` element read by
`SimpleBannerExtractor._parse_html_for_banners`. -/
structure BeImgAttrs where
  src : Str := []
  alt : Str := []
  title : Str := []
  cls : Str := []
  width : Option Str := none
  height : Option Str := none
deriving DecidableEq, Repr

/-- A styled element handed to the background-image branch of
`_parse_html_for_banners`; `bgUrl` is the first capture of the
`background-image: url(...)` regex over its style text (`none` = no
match), modelling the regex at the DOM boundary. -/
structure BgElem where
  bgUrl : Option Str := none
  cls : Str := []
deriving DecidableEq, Repr

/-- `SimpleBannerExtractor._parse_html_for_banners`: a `banner_data`
record per `<img>` with a non-empty `src` and per styled element with a
background-image match, keeping those accepted by
`_is_promotional_banner`.  Note: only emptiness of `src` is checked —
there is no data-URI filter in this variant. -/
def parse_html_for_banners (min_width min_height : Int) (base : Str)
    (imgs : List BeImgAttrs) (bgs : List BgElem) : List BannerData :=
  (imgs.filterMap (fun a =>
    if a.src = [] then none
    else
      if is_promotional_banner min_width min_height
        { url := urljoin base a.src, alt := a.alt, title := a.title, cls := a.cls,
          width := parse_dim a.width, height := parse_dim a.height } then
        some { url := urljoin base a.src, alt := a.alt, title := a.title, cls := a.cls,
               width := parse_dim a.width, height := parse_dim a.height }
      else none)) ++
  (bgs.filterMap (fun e =>
    match e.bgUrl with
    | none => none
    | some bu =>
      if is_promotional_banner min_width min_height { url := urljoin base bu, cls := e.cls } then
        some ({ url := urljoin base bu, cls := e.cls } : BannerData)
      else none))

/-- An img element whose `src` is a data URI that contains a
promotional keyword. -/
def cexC5attrs : BeImgAttrs := { src := "data:image/png;base64,bonus".data }

/-- An element with a data-URI source only. -/
def c5bad : ImgAttrs := { src := "data:abc".data }

/-- An element with a normal relative source. -/
def c5wAttrs : ImgAttrs := { src := "/promo/b.jpg".data }

/-- The record `imgRefs` produces for `c5wAttrs` under
`https://example.com/`. -/
def c5wImg : Img :=
  { url := "https://example.com/promo/b.jpg".data, tag := "img".data }

/-! ### Binary image sniffing -/

/-- `detect_image_type`: magic-byte detection following the
`IMAGE_SIGNATURES` table in its dict insertion order (jpg, png, GIF87a,
GIF89a, RIFF), with the mandatory extra `WEBP` check at offset 8 for
`RIFF` files (a failed check `continue`s past the final table entry,
yielding `None`). -/
def detect_image_type (data : List Nat) : Option Str :=
  if data.take 3 = [0xff, 0xd8, 0xff] then some "jpg".data
  else if data.take 4 = [0x89, 0x50, 0x4e, 0x47] then some "png".data
  else if data.take 6 = [0x47, 0x49, 0x46, 0x38, 0x37, 0x61] then some "gif".data
  else if data.take 6 = [0x47, 0x49, 0x46, 0x38, 0x39, 0x61] then some "gif".data
  else if data.take 4 = [0x52, 0x49, 0x46, 0x46] then
    if (data.drop 8).take 4 = [0x57, 0x45, 0x42, 0x50] then some "webp".data
    else none
  else none

/-- Big-endian 16-bit value (`struct.unpack(">H", ..)`). -/
def be2 (a b : Nat) : Nat := 256 * a + b

/-- Big-endian value of a byte list (`struct.unpack(">I", ..)` on a
4-byte slice). -/
def be4 (bs : List Nat) : Nat := bs.foldl (fun acc b => 256 * acc + b) 0

/-- Little-endian 16-bit value (`struct.unpack("<H", ..)`). -/
def le2 (a b : Nat) : Nat := a + 256 * b

/-- The body of the SOF-marker scan loop of `get_image_dimensions`,
with an explicit step budget (every iteration advances `i` by at least
one, so `data.length` steps always reach the `while` exit). -/
def jpegScanFuel (data : List Nat) : Nat → Nat → Option (Nat × Nat)
  | 0, _ => none
  | fuel + 1, i =>
    if i < data.length - 9 then
      if data.getD i 0 = 0xff then
        if data.getD (i + 1) 0 = 0xc0 ∨ data.getD (i + 1) 0 = 0xc2 then
          some (be2 (data.getD (i + 7) 0) (data.getD (i + 8) 0),
                be2 (data.getD (i + 5) 0) (data.getD (i + 6) 0))
        else jpegScanFuel data fuel (i + 2 + be2 (data.getD (i + 2) 0) (data.getD (i + 3) 0))
      else jpegScanFuel data fuel (i + 1)
    else none

/-- The SOF-marker scan of `get_image_dimensions` for JPEG data:
starting at offset `i`, walk `FF`-markers; on `C0`/`C2` return
`(width, height)` read big-endian from payload offsets +3 and +1; skip
other markers by their declared big-endian length; `none` when the scan
runs off the end (`while i < len(data) - 9`). -/
def jpegScan (data : List Nat) (i : Nat) : Option (Nat × Nat) :=
  jpegScanFuel data data.length i

/-- `get_image_dimensions`, modelled on the file's bytes: PNG reads the
two big-endian 32-bit integers at offsets 16/20 of the 32-byte header
slice, JPEG scans for a SOF marker, GIF reads the two little-endian
16-bit integers at offsets 6/8; every parse failure (including the
`struct.error` on a truncated slice, swallowed by the surrounding
`try/except`) yields `(0, 0)`. -/
def get_image_dimensions (data : List Nat) : Nat × Nat :=
  if (data.take 32).take 4 = [0x89, 0x50, 0x4e, 0x47] then
    if 24 ≤ data.length then
      (be4 (((data.take 32).drop 16).take 4), be4 (((data.take 32).drop 20).take 4))
    else (0, 0)
  else
    match (if data.take 2 = [0xff, 0xd8] then jpegScan data 2 else none) with
    | some wh => wh
    | none =>
      if (data.take 32).take 3 = [0x47, 0x49, 0x46] then
        if 10 ≤ data.length then
          (le2 (data.getD 6 0) (data.getD 7 0), le2 (data.getD 8 0) (data.getD 9 0))
        else (0, 0)
      else (0, 0)

/-! ### Claim C7: PNG dimension round trip -/

/-- A minimal 24-byte PNG header with IHDR width 640 and height 100. -/
def pngC7 : List Nat :=
  [0x89, 0x50, 0x4e, 0x47, 0x0d, 0x0a, 0x1a, 0x0a,
   0, 0, 0, 0x0d, 0x49, 0x48, 0x44, 0x52,
   0, 0, 2, 128, 0, 0, 0, 100]

/-! ### Claim C9: manifest counters -/

/-- The metadata dict `download_image` returns for a successful
download, together with the fields `scrape_banners` attaches
afterwards. -/
structure DMeta where
  file : Str := []
  filename : Str := []
  url : Str := []
  width : Nat := 0
  height : Nat := 0
  size_bytes : Nat := 0
  format : Str := []
  alt : Str := []
  title : Str := []
  source_tag : Str := []
  context : Str := []
deriving DecidableEq, Repr

/-- The manifest dict written at the end of `scrape_banners` (the
source-URL and timestamp strings are omitted — they carry no claimed
invariant). -/
structure Manifest where
  total_images_found : Nat
  banners_downloaded : Nat
  all_images_mode : Bool
  images : List DMeta
deriving DecidableEq, Repr

/-- The download loop of `scrape_banners`: `enumerate(candidates, 1)`
with `download_image` as an oracle (`none` models any failed download);
on success the candidate's alt/title/tag/context are attached and the
record is appended. -/
def downloadAll (dl : Nat → Img → Option DMeta) : Nat → List Img → List DMeta
  | _, [] => []
  | i, img :: rest =>
    match dl i img with
    | some m =>
      { m with alt := img.alt, title := img.title,
               source_tag := img.tag, context := img.context } ::
        downloadAll dl (i + 1) rest
    | none => downloadAll dl (i + 1) rest

/-- The pure dataflow of `scrape_banners` after extraction:
deduplicate, filter with `is_banner_candidate`, download, and build the
manifest.  `none` models the early return when no candidate survives
filtering — no manifest is written on that path. -/
def scrape_banners (dl : Nat → Img → Option DMeta) (all_found : List Img)
    (all_images : Bool) : Option Manifest :=
  if (dedup all_found).filter (fun i => is_banner_candidate i all_images) = [] then
    none
  else
    some { total_images_found := (dedup all_found).length,
           banners_downloaded :=
             (downloadAll dl 1
               ((dedup all_found).filter (fun i => is_banner_candidate i all_images))).length,
           all_images_mode := all_images,
           images :=
             downloadAll dl 1
               ((dedup all_found).filter (fun i => is_banner_candidate i all_images)) }

/-- A single candidate whose URL matches a promo pattern. -/
def exC9 : Img := { url := "https://example.com/banner.jpg".data }

/-- A download oracle that always succeeds with a minimal record. -/
def dlC9 : Nat → Img → Option DMeta := fun _ img => some { url := img.url }

/-- The manifest the pipeline produces for `exC9` under `dlC9`. -/
def mC9 : Manifest :=
  { total_images_found := 1, banners_downloaded := 1, all_images_mode := false,
    images := [{ url := exC9.url }] }

/-! ### Claim C10: the banner_extractor download loop -/

/-- ASCII character of a decimal digit. -/
def digitChar (d : Nat) : Char :=
  match d with
  | 0 => '0' | 1 => '1' | 2 => '2' | 3 => '3' | 4 => '4'
  | 5 => '5' | 6 => '6' | 7 => '7' | 8 => '8' | _ => '9'

/-- Decimal digits, most significant first, with an explicit step
budget (`n` steps always suffice: the value shrinks by a factor of ten
each step). -/
def natDigitsFuel : Nat → Nat → List Nat
  | 0, n => [n]
  | fuel + 1, n =>
    if n < 10 then [n] else natDigitsFuel fuel (n / 10) ++ [n % 10]

/-- Decimal digits of `n`, most significant first. -/
def natDigits (n : Nat) : List Nat := natDigitsFuel n n

/-- Python `f"{n:03d}"`: the decimal digits left-padded with zeros to
width three. -/
def pad3 (n : Nat) : Str :=
  List.replicate (3 - (natDigits n).length) '0' ++ (natDigits n).map digitChar

/-- Decimal value of a character list read as digits. -/
def digitsValue (cs : Str) : Nat := cs.foldl (fun a c => 10 * a + (c.toNat - 48)) 0

/-- The path prefix shared by a banner's image file and its metadata
file: `site_dir / f"banner_{i:03d}_{url_hash}"`. -/
def imgPathCore (siteDir : Str) (i : Nat) (hash8 : Str) : Str :=
  (siteDir ++ "/banner_".data) ++ (pad3 i ++ '_' :: hash8)

/-- Recover the sequence index embedded in a download path. -/
def pathIdx (siteDir : Str) (p : Str) : Nat :=
  digitsValue ((p.drop (siteDir.length + 8)).takeWhile Char.isDigit)

/-- `_get_extension` from `banner_extractor.py`. -/
def get_extension (ctype : Str) : Str :=
  if pyIn "jpeg".data ctype || pyIn "jpg".data ctype then ".jpg".data
  else if pyIn "png".data ctype then ".png".data
  else if pyIn "gif".data ctype then ".gif".data
  else if pyIn "webp".data ctype then ".webp".data
  else ".jpg".data

/-- The oracle response of `session.get` in `_download_banners`:
declared content type, declared `content-length` header value and body
bytes; `none` models any exception raised in the per-banner `try` block
(network error, non-2xx status, malformed length header). -/
structure FetchResult where
  ctype : Str
  contentLength : Nat
  body : List Nat
deriving DecidableEq, Repr

/-- The download directory, as an association list from path to written
bytes (a write shadows any previous entry; `unlink` removes). -/
abbrev Fs := List (Str × List Nat)

/-- Content of the file at `k`, when it exists. -/
def fsGet (fs : Fs) (k : Str) : Option (List Nat) :=
  match fs with
  | [] => none
  | (k2, v) :: rest => if k2 = k then some v else fsGet rest k

/-- `Path.unlink`. -/
def fsRemove (fs : Fs) (k : Str) : Fs :=
  fs.filter (fun q => decide (q.1 ≠ k))

/-- Writing a file (`open(filepath, "wb")` + chunked copy). -/
def fsSet (fs : Fs) (k : Str) (v : List Nat) : Fs := (k, v) :: fsRemove fs k

/-- The metadata JSON `_save_metadata` writes next to each image (the
exact serialization is immaterial to every claim; its bytes are modelled
as the concatenated text fields). -/
def metadataBytes (b : BannerData) : List Nat :=
  (b.url ++ b.alt ++ b.title).map Char.toNat

/-- `_validate_image`: PIL verification (an oracle over the stored
bytes) and a strict 1000-byte size floor, `False` when the file cannot
be read. -/
def validate_image (pilVerify : List Nat → Bool) (fs : Fs) (p : Str) : Bool :=
  match fsGet fs p with
  | some b => pilVerify b && decide (1000 < b.length)
  | none => false

/-- One iteration of the `_download_banners` loop body for banner `b`
at 1-based index `i`: fetch, content-type and size checks, write the
image file, then either keep it (appending its path and writing the
metadata JSON) or unlink it when validation fails.  Any fetch-side
exception (`none`) skips the banner. -/
def download_step (fetch : Str → Option FetchResult) (md5hex : Str → Str)
    (pilVerify : List Nat → Bool) (maxFileSize : Nat) (siteDir : Str)
    (i : Nat) (b : BannerData) (files : List Str) (fs : Fs) : List Str × Fs :=
  match fetch b.url with
  | none => (files, fs)
  | some r =>
    if pyIn "image".data r.ctype = false then (files, fs)
    else if maxFileSize < r.contentLength then (files, fs)
    else
      if validate_image pilVerify
          (fsSet fs (imgPathCore siteDir i ((md5hex b.url).take 8) ++ get_extension r.ctype) r.body)
          (imgPathCore siteDir i ((md5hex b.url).take 8) ++ get_extension r.ctype) then
        (files ++ [imgPathCore siteDir i ((md5hex b.url).take 8) ++ get_extension r.ctype],
         fsSet
           (fsSet fs (imgPathCore siteDir i ((md5hex b.url).take 8) ++ get_extension r.ctype) r.body)
           (imgPathCore siteDir i ((md5hex b.url).take 8) ++ ".json".data)
           (metadataBytes b))
      else
        (files,
         fsRemove
           (fsSet fs (imgPathCore siteDir i ((md5hex b.url).take 8) ++ get_extension r.ctype) r.body)
           (imgPathCore siteDir i ((md5hex b.url).take 8) ++ get_extension r.ctype))

/-- The `_download_banners` loop over `enumerate(banners, 1)`. -/
def download_loop (fetch : Str → Option FetchResult) (md5hex : Str → Str)
    (pilVerify : List Nat → Bool) (maxFileSize : Nat) (siteDir : Str) :
    Nat → List BannerData → List Str → Fs → List Str × Fs
  | _, [], files, fs => (files, fs)
  | i, b :: rest, files, fs =>
    download_loop fetch md5hex pilVerify maxFileSize siteDir (i + 1) rest
      (download_step fetch md5hex pilVerify maxFileSize siteDir i b files fs).1
      (download_step fetch md5hex pilVerify maxFileSize siteDir i b files fs).2

/-- `SimpleBannerExtractor._download_banners`: the returned file list
together with the final state of the download directory. -/
def download_banners (fetch : Str → Option FetchResult) (md5hex : Str → Str)
    (pilVerify : List Nat → Bool) (maxFileSize : Nat) (siteDir : Str)
    (banners : List BannerData) : List Str × Fs :=
  download_loop fetch md5hex pilVerify maxFileSize siteDir 1 banners [] []

/-- Loop invariant: every collected path is an image path of an earlier
iteration whose stored bytes passed validation. -/
def DlInv (pilVerify : List Nat → Bool) (siteDir : Str) (i : Nat)
    (files : List Str) (fs : Fs) : Prop :=
  ∀ p ∈ files,
    (∃ j h8 ext, j < i ∧
      ext ∈ [".jpg".data, ".png".data, ".gif".data, ".webp".data] ∧
      p = imgPathCore siteDir j h8 ++ ext) ∧
    (∃ b, fsGet fs p = some b ∧ pilVerify b = true ∧ 1000 < b.length)

/-- A transport oracle delivering a 1001-byte PNG. -/
def c10fetch : Str → Option FetchResult := fun _ =>
  some { ctype := "image/png".data, contentLength := 0, body := List.replicate 1001 0 }

/-- A hash oracle with a fixed 8-character digest. -/
def c10md5 : Str → Str := fun _ => "aabbccdd".data

/-- A PIL oracle that accepts everything. -/
def c10pil : List Nat → Bool := fun _ => true

/-- One banner to download. -/
def c10banners : List BannerData := [{ url := "https://example.com/banner.png".data }]

/-! ## Theorems -/

/-! ### Claims C1 and C2: the classifier gates -/

/-- Claim C1: for every candidate with both dimensions known (positive),
both classifiers reject whenever the aspect ratio w/h lies outside the
configured bounds ([0.8, 8.0] for `is_banner_candidate` with
`include_all = false`, [1.2, 6.0] for `_is_promotional_banner`),
regardless of keyword or promo-URL matches: the size/shape rule is a
hard conjunctive gate. -/
theorem spec_C1 :
    (∀ img : Img, 0 < img.width → 0 < img.height →
      ((img.width : ℚ) / (img.height : ℚ) < 4/5 ∨
        8 < (img.width : ℚ) / (img.height : ℚ)) →
      is_banner_candidate img false = false) ∧
    (∀ (mw mh : Int) (b : BannerData), 0 < b.width → 0 < b.height →
      ((b.width : ℚ) / (b.height : ℚ) < 6/5 ∨
        6 < (b.width : ℚ) / (b.height : ℚ)) →
      is_promotional_banner mw mh b = false) := by
  constructor
  · intro img hw hh hr
    have hsize : nd_size_ok img = false := by
      unfold nd_size_ok
      rw [if_pos ⟨hw, hh⟩]
      have : ¬ ((4 : ℚ)/5 ≤ (img.width : ℚ) / (img.height : ℚ) ∧
          (img.width : ℚ) / (img.height : ℚ) ≤ 8) := by
        rintro ⟨h1, h2⟩
        rcases hr with h | h <;> linarith
      rw [decide_eq_false this, Bool.and_false]
    unfold is_banner_candidate
    split
    · rfl
    · simp [hsize]
  · intro mw mh b hw hh hr
    have hsize : be_size_ok mw mh b = false := by
      unfold be_size_ok
      rw [if_pos ⟨hw, hh⟩]
      have : ¬ ((6 : ℚ)/5 ≤ (b.width : ℚ) / (b.height : ℚ) ∧
          (b.width : ℚ) / (b.height : ℚ) ≤ 6) := by
        rintro ⟨h1, h2⟩
        rcases hr with h | h <;> linarith
      rw [decide_eq_false this, Bool.and_false]
    unfold is_promotional_banner
    rw [hsize, Bool.and_false]

/-- Witness for C1 at a concrete keyword-matching 300x10 candidate. -/
theorem spec_C1_witness :
    is_banner_candidate exC1 false = false ∧
    is_promotional_banner 200 80 exC1b = false :=
  ⟨spec_C1.1 exC1 (by decide) (by decide) (by norm_num [exC1]),
   spec_C1.2 200 80 exC1b (by decide) (by decide) (by norm_num [exC1b])⟩

/-- Claim C2: a candidate whose lower-cased URL contains any denylisted
substring is rejected by `is_banner_candidate` for every value of
`include_all` — the denylist is checked before the include-all
short-circuit. -/
theorem spec_C2 :
    ∀ (img : Img) (include_all : Bool) (s : Str),
      s ∈ SKIP_PATTERNS → pyIn s (pyLower img.url) = true →
      is_banner_candidate img include_all = false := by
  intro img ia s hs hin
  have hany : SKIP_PATTERNS.any (fun p => pyIn p (pyLower img.url)) = true :=
    List.any_eq_true.mpr ⟨s, hs, hin⟩
  unfold is_banner_candidate
  rw [if_pos hany]

/-- Witness for C2: the favicon candidate is rejected even with
`include_all = true`. -/
theorem spec_C2_witness : is_banner_candidate exC2 true = false :=
  spec_C2 exC2 true "favicon".data (by decide) (by decide)

/-! ### Claims C3 and C4: deduplication -/

/-- Once a URL is in `seen`, no record with that URL survives. -/
theorem dedupAux_filter_of_mem (u : Str) :
    ∀ (refs : List Img) (seen : List Str), u ∈ seen →
      (dedupAux seen refs).filter (fun c => decide (c.url = u)) = [] := by
  intro refs
  induction refs with
  | nil => intro seen _; rfl
  | cons img rest ih =>
    intro seen hu
    unfold dedupAux
    split
    · exact ih seen hu
    · rename_i hnot
      rw [List.filter_cons]
      have hne : ¬ img.url = u := by
        intro h; exact hnot (h ▸ hu)
      rw [decide_eq_false hne]
      simp only [Bool.false_eq_true, if_false]
      exact ih (img.url :: seen) (List.mem_cons_of_mem _ hu)

/-- For an unseen URL, the survivors with that URL are exactly the first
input record carrying it. -/
theorem dedupAux_filter_find (u : Str) :
    ∀ (refs : List Img) (seen : List Str) (r : Img), u ∉ seen →
      refs.find? (fun c => decide (c.url = u)) = some r →
      (dedupAux seen refs).filter (fun c => decide (c.url = u)) = [r] := by
  intro refs
  induction refs with
  | nil => intro seen r _ hfind; simp [List.find?] at hfind
  | cons img rest ih =>
    intro seen r hu hfind
    rw [List.find?_cons] at hfind
    unfold dedupAux
    by_cases hurl : img.url = u
    · rw [decide_eq_true hurl] at hfind
      have hr : img = r := by
        simpa using hfind
      have hmem : ¬ img.url ∈ seen := by
        rw [hurl]; exact hu
      rw [if_neg hmem, List.filter_cons, decide_eq_true hurl]
      simp only [if_true]
      rw [dedupAux_filter_of_mem u rest (img.url :: seen)
        (by rw [hurl]; exact List.mem_cons_self _ _)]
      rw [hr]
    · rw [decide_eq_false hurl] at hfind
      simp only [Bool.false_eq_true, if_false] at hfind
      split
      · exact ih seen r hu hfind
      · rw [List.filter_cons, decide_eq_false hurl]
        simp only [Bool.false_eq_true, if_false]
        exact ih (img.url :: seen) r
          (by intro h; rcases List.mem_cons.mp h with h | h
              · exact hurl h.symm
              · exact hu h)
          hfind

/-- Claim C3 (amended): given references sharing a resolved URL, the
deduplication loop of `scrape_banners` yields exactly one candidate for
that URL, namely the first reference carrying it; the candidate keeps
only that first reference's single source channel (`tag`) — no
`channels` set is accumulated. -/
theorem spec_C3 :
    ∀ (refs : List Img) (u : Str) (r : Img),
      refs.find? (fun c => decide (c.url = u)) = some r →
      (dedup refs).filter (fun c => decide (c.url = u)) = [r] := by
  intro refs u r hfind
  exact dedupAux_filter_find u refs [] r (by simp) hfind

/-- Counterexample to Claim C3 as stated: two references to one URL
arriving through two distinct channels (`img` and `source`) leave a
single candidate carrying only one channel — its channel set has size
1, not 2 as the claim requires. -/
theorem spec_C3_cex :
    (channelsOf (dedup [cexR1, cexR2]) ("https://example.com/promo/banner.jpg".data)).length = 1 ∧
    (channelsOf [cexR1, cexR2] ("https://example.com/promo/banner.jpg".data)).length = 2 ∧
    (channelsOf (dedup [cexR1, cexR2]) ("https://example.com/promo/banner.jpg".data)).length ≠
      (channelsOf [cexR1, cexR2] ("https://example.com/promo/banner.jpg".data)).length := by
  refine ⟨by decide, by decide, by decide⟩

/-- Witness for the amended C3 at the concrete two-channel input. -/
theorem spec_C3_witness :
    (dedup [cexR1, cexR2]).filter
      (fun c => decide (c.url = "https://example.com/promo/banner.jpg".data)) = [cexR1] :=
  spec_C3 [cexR1, cexR2] ("https://example.com/promo/banner.jpg".data) cexR1 (by decide)

/-- Appending a reference whose URL already occurs changes nothing. -/
theorem dedupAux_append_dup :
    ∀ (refs : List Img) (seen : List Str) (r : Img),
      (r.url ∈ seen ∨ r.url ∈ refs.map (fun c => c.url)) →
      dedupAux seen (refs ++ [r]) = dedupAux seen refs := by
  intro refs
  induction refs with
  | nil =>
    intro seen r h
    rcases h with h | h
    · show dedupAux seen [r] = dedupAux seen []
      unfold dedupAux
      rw [if_pos h]
      rfl
    · simp at h
  | cons img rest ih =>
    intro seen r h
    rw [List.map_cons, List.mem_cons] at h
    rw [List.cons_append]
    show dedupAux seen (img :: (rest ++ [r])) = dedupAux seen (img :: rest)
    unfold dedupAux
    split
    · rename_i hmem
      refine ih seen r ?_
      rcases h with h | h | h
      · exact Or.inl h
      · exact Or.inl (h ▸ hmem)
      · exact Or.inr h
    · rw [ih (img.url :: seen) r ?_]
      rcases h with h | h | h
      · exact Or.inl (List.mem_cons_of_mem _ h)
      · exact Or.inl (by rw [h]; exact List.mem_cons_self _ _)
      · exact Or.inr h

/-- Claim C4 (amended): when a reference's URL is already present among
earlier references, the deduplication loop of `scrape_banners` skips the
new reference entirely — no still-unknown width, height, alt or title of
the existing candidate is filled in; the output is unchanged. -/
theorem spec_C4 :
    ∀ (refs : List Img) (r : Img),
      r.url ∈ refs.map (fun c => c.url) →
      dedup (refs ++ [r]) = dedup refs := by
  intro refs r h
  exact dedupAux_append_dup refs [] r (Or.inr h)

/-- Counterexample to Claim C4 as stated: the first sighting has unknown
(0) dimensions and a later sighting of the same URL carries
width 500 / height 200, yet the surviving candidate still has width 0 —
the later reference is dropped, nothing is filled in. -/
theorem spec_C4_cex :
    dedup [c4r1, c4r2] = [c4r1] ∧
    (dedup [c4r1, c4r2]).map (fun c => c.width) ≠ [(500 : Int)] := by
  refine ⟨by decide, by decide⟩

/-- Witness for the amended C4 at the concrete duplicate input. -/
theorem spec_C4_witness : dedup ([c4r1] ++ [c4r2]) = dedup [c4r1] :=
  spec_C4 [c4r1] c4r2 (by decide)

/-! ### Claim C5: empty and data-URI sources -/

/-- A list starting with a character other than `d` is not
data-URI-prefixed. -/
theorem data_isPrefixOf_cons (c : Char) (t : Str) (h : ('d' == c) = false) :
    "data:".data.isPrefixOf (c :: t) = false := by
  show (('d' == c) && ("ata:".data.isPrefixOf t)) = false
  rw [h, Bool.false_and]

/-- A string with prefix `http` starts with the character `h`. -/
theorem head_of_http (s : Str) (hs : "http".data.isPrefixOf s = true) :
    ∃ t, s = 'h' :: t := by
  cases s with
  | nil => simp [List.isPrefixOf] at hs
  | cons c t =>
    have hc : ('h' == c) = true := by
      have : (('h' == c) && ("ttp".data.isPrefixOf t)) = true := hs
      exact (Bool.and_eq_true_iff.mp this).1
    exact ⟨t, by rw [eq_of_beq hc]⟩

/-- Everything `joinRel` produces under an `http`-ish scheme is nonempty
and not data-URI-prefixed. -/
theorem joinRel_http_safe (netlocPart bpath u s : Str)
    (hs : "http".data.isPrefixOf s = true) :
    joinRel (s ++ ":".data) netlocPart bpath u ≠ [] ∧
      "data:".data.isPrefixOf (joinRel (s ++ ":".data) netlocPart bpath u) = false := by
  obtain ⟨t, ht⟩ := head_of_http s hs
  subst ht
  have shape : ∀ y : Str, ('h' :: t) ++ ":".data ++ y ≠ [] ∧
      "data:".data.isPrefixOf (('h' :: t) ++ ":".data ++ y) = false := by
    intro y
    rw [List.cons_append, List.cons_append]
    exact ⟨List.cons_ne_nil _ _, data_isPrefixOf_cons 'h' _ (by decide)⟩
  unfold joinRel
  split
  · exact shape u
  · split
    · exact shape (netlocPart ++ u)
    · exact shape (netlocPart ++ (dirOf bpath ++ u))

/-- `urljoin` against a base with an `http`-ish scheme maps nonempty
non-data inputs to nonempty non-data outputs. -/
theorem urljoin_http_safe (base u s r : Str)
    (hb : splitScheme base = some (s, r)) (hs : "http".data.isPrefixOf s = true)
    (hu : u ≠ []) (hd : "data:".data.isPrefixOf u = false) :
    urljoin base u ≠ [] ∧ "data:".data.isPrefixOf (urljoin base u) = false := by
  have hbase : base ≠ [] := by
    intro h
    rw [h] at hb
    simp [splitScheme] at hb
  unfold urljoin
  rw [if_neg hbase, if_neg hu, hb]
  cases hsu : splitScheme u with
  | none =>
    simp only []
    split
    · exact joinRel_http_safe _ _ u s hs
    · exact ⟨hu, hd⟩
  | some p =>
    simp only []
    split
    · exact joinRel_http_safe _ _ p.2 s hs
    · exact ⟨hu, hd⟩

/-- Nonempty outputs of `_resolve` are never data-URI-prefixed (under an
http(s) base URL), and are produced only from nonempty non-data inputs. -/
theorem resolveUrl_safe (base u s r : Str)
    (hb : splitScheme base = some (s, r)) (hs : "http".data.isPrefixOf s = true)
    (hne : resolveUrl base u ≠ []) :
    "data:".data.isPrefixOf (resolveUrl base u) = false := by
  unfold resolveUrl at hne ⊢
  split at hne
  · exact absurd rfl hne
  · rename_i hcond
    push_neg at hcond
    rw [if_neg (by push_neg; exact hcond)]
    exact (urljoin_http_safe base u s r hb hs hcond.1
      (Bool.eq_false_iff.mpr hcond.2)).2

/-- Every member of a `_parse_srcset` result is nonempty and not
data-URI-prefixed (under an http(s) base URL). -/
theorem parse_srcset_safe (base ss s r : Str)
    (hb : splitScheme base = some (s, r)) (hs : "http".data.isPrefixOf s = true) :
    ∀ u ∈ parse_srcset base ss, u ≠ [] ∧ "data:".data.isPrefixOf u = false := by
  intro u hu
  unfold parse_srcset at hu
  split at hu
  · simp at hu
  · rw [List.mem_filterMap] at hu
    obtain ⟨part, _, hf⟩ := hu
    split at hf
    · exact absurd hf (by simp)
    · split at hf
      · exact absurd hf (by simp)
      · rename_i hne
        have hu' : u = resolveUrl base (srcsetTok part) := (Option.some.inj hf).symm
        subst hu'
        exact ⟨hne, resolveUrl_safe base _ s r hb hs hne⟩

/-- Claim C5 (amended): in the `scrape_novadreams.py` variant — both the
stdlib-parser `<img>` branch and the bs4 `<img>` loop — an element whose
source is empty or a data URI yields no reference, and every emitted
reference carries a nonempty, non-data URL (for an http(s) base URL).
The `banner_extractor.py` variant is excluded: it only skips empty
sources (see the counterexample). -/
theorem spec_C5 :
    (∀ (base ctx : Str) (a : ImgAttrs),
      (a.src = [] ∨ "data:".data.isPrefixOf a.src) →
      ((if a.dataSrc ≠ [] then a.dataSrc else a.dataLazySrc) = [] ∨
        "data:".data.isPrefixOf (if a.dataSrc ≠ [] then a.dataSrc else a.dataLazySrc)) →
      imgRefs base ctx a = []) ∧
    (∀ (base parentCls : Str) (a : ImgAttrs),
      (bs4_src a = [] ∨ "data:".data.isPrefixOf (bs4_src a)) →
      bs4ImgRefs base parentCls a = []) ∧
    (∀ (base ctx : Str) (s r : Str), splitScheme base = some (s, r) →
      "http".data.isPrefixOf s = true →
      ∀ (a : ImgAttrs) (img : Img), img ∈ imgRefs base ctx a →
        img.url ≠ [] ∧ "data:".data.isPrefixOf img.url = false) ∧
    (∀ (base parentCls : Str) (s r : Str), splitScheme base = some (s, r) →
      "http".data.isPrefixOf s = true →
      ∀ (a : ImgAttrs) (img : Img), img ∈ bs4ImgRefs base parentCls a →
        img.url ≠ [] ∧ "data:".data.isPrefixOf img.url = false) := by
  refine ⟨?_, ?_, ?_, ?_⟩
  · intro base ctx a h1 h2
    have hsrc : nd_src base a = [] := by
      unfold nd_src resolveUrl
      rw [if_pos h1]
    have hdata : nd_data_src base a = [] := by
      unfold nd_data_src resolveUrl
      rw [if_pos h2]
    unfold imgRefs
    rw [if_neg (by push_neg; exact ⟨hsrc, hdata⟩)]
  · intro base parentCls a h
    unfold bs4ImgRefs
    rw [if_pos h]
  · intro base ctx s r hb hs a img hmem
    unfold imgRefs at hmem
    split at hmem
    · rename_i hcond
      rw [List.mem_singleton] at hmem
      subst hmem
      simp only []
      split
      · rename_i hne
        exact ⟨hne, resolveUrl_safe base a.src s r hb hs hne⟩
      · rename_i hne
        rcases hcond with h | h
        · exact absurd h hne
        · exact ⟨h, resolveUrl_safe base _ s r hb hs h⟩
    · simp at hmem
  · intro base parentCls s r hb hs a img hmem
    unfold bs4ImgRefs at hmem
    split at hmem
    · simp at hmem
    · rename_i hcond
      push_neg at hcond
      rw [List.mem_cons] at hmem
      rcases hmem with hmem | hmem
      · subst hmem
        simp only []
        exact urljoin_http_safe base (bs4_src a) s r hb hs hcond.1
          (Bool.eq_false_iff.mpr hcond.2)
      · rw [List.mem_map] at hmem
        obtain ⟨u, hu, himg⟩ := hmem
        subst himg
        simp only []
        exact parse_srcset_safe base a.srcset s r hb hs u hu

/-- Counterexample to Claim C5 as stated: in the
`banner_extractor.py` variant a data-URI `src` survives extraction —
`_parse_html_for_banners` emits a reference whose URL starts with
`data:` (the classifier accepts it because the URI contains a
promotional keyword and its dimensions are unknown). -/
theorem spec_C5_cex :
    (parse_html_for_banners 200 80 ("https://example.com/".data) [cexC5attrs] []).map
      (fun b => b.url) = ["data:image/png;base64,bonus".data] ∧
    "data:".data.isPrefixOf "data:image/png;base64,bonus".data = true := by
  refine ⟨by decide, by decide⟩

/-- Witness for the amended C5: a data-URI source yields no reference,
and a concrete emitted reference has a nonempty non-data URL. -/
theorem spec_C5_witness :
    imgRefs ("https://example.com/".data) [] c5bad = [] ∧
    (c5wImg.url ≠ [] ∧ "data:".data.isPrefixOf c5wImg.url = false) :=
  ⟨spec_C5.1 ("https://example.com/".data) [] c5bad (by decide) (by decide),
   spec_C5.2.2.1 ("https://example.com/".data) [] ("https".data) ("//example.com/".data)
     (by decide) (by decide) c5wAttrs c5wImg (by decide)⟩

/-! ### Claim C6: format detection by magic bytes -/

/-- Claim C6: `detect_image_type` returns webp iff the bytes begin with
`RIFF` and bytes 8..11 are `WEBP`; a `RIFF` file without `WEBP` at
offset 8 is not classified at all; JPEG, PNG and GIF are detected by
their leading signatures. -/
theorem spec_C6 :
    (∀ data : List Nat, detect_image_type data = some "webp".data ↔
      (data.take 4 = [0x52, 0x49, 0x46, 0x46] ∧
        (data.drop 8).take 4 = [0x57, 0x45, 0x42, 0x50])) ∧
    (∀ data : List Nat, data.take 4 = [0x52, 0x49, 0x46, 0x46] →
      (data.drop 8).take 4 ≠ [0x57, 0x45, 0x42, 0x50] →
      detect_image_type data = none) ∧
    (∀ data : List Nat, data.take 3 = [0xff, 0xd8, 0xff] →
      detect_image_type data = some "jpg".data) ∧
    (∀ data : List Nat, data.take 4 = [0x89, 0x50, 0x4e, 0x47] →
      detect_image_type data = some "png".data) ∧
    (∀ data : List Nat,
      data.take 6 = [0x47, 0x49, 0x46, 0x38, 0x37, 0x61] ∨
        data.take 6 = [0x47, 0x49, 0x46, 0x38, 0x39, 0x61] →
      detect_image_type data = some "gif".data) := by
  have take_of_take : ∀ (data : List Nat) (m n : Nat), m ≤ n →
      (data.take n).take m = data.take m := by
    intro data m n h
    rw [List.take_take, Nat.min_eq_left h]
  have riff_negs : ∀ data : List Nat, data.take 4 = [0x52, 0x49, 0x46, 0x46] →
      data.take 3 ≠ [0xff, 0xd8, 0xff] ∧
      data.take 4 ≠ [0x89, 0x50, 0x4e, 0x47] ∧
      data.take 6 ≠ [0x47, 0x49, 0x46, 0x38, 0x37, 0x61] ∧
      data.take 6 ≠ [0x47, 0x49, 0x46, 0x38, 0x39, 0x61] := by
    intro data h4
    have h3 : data.take 3 = [0x52, 0x49, 0x46] := by
      rw [← take_of_take data 3 4 (by omega), h4]; rfl
    refine ⟨by rw [h3]; decide, by rw [h4]; decide, ?_, ?_⟩
    · intro h
      have : data.take 4 = [0x47, 0x49, 0x46, 0x38] := by
        rw [← take_of_take data 4 6 (by omega), h]; rfl
      rw [h4] at this
      exact absurd this (by decide)
    · intro h
      have : data.take 4 = [0x47, 0x49, 0x46, 0x38] := by
        rw [← take_of_take data 4 6 (by omega), h]; rfl
      rw [h4] at this
      exact absurd this (by decide)
  refine ⟨?_, ?_, ?_, ?_, ?_⟩
  · intro data
    constructor
    · intro h
      unfold detect_image_type at h
      split_ifs at h with h1 h2 h3 h4 h5 h6
      all_goals try exact absurd h (by decide)
      exact ⟨h5, h6⟩
    · rintro ⟨h4, h8⟩
      obtain ⟨n1, n2, n3, n4⟩ := riff_negs data h4
      unfold detect_image_type
      rw [if_neg n1, if_neg n2, if_neg n3, if_neg n4, if_pos h4, if_pos h8]
  · intro data h4 h8
    obtain ⟨n1, n2, n3, n4⟩ := riff_negs data h4
    unfold detect_image_type
    rw [if_neg n1, if_neg n2, if_neg n3, if_neg n4, if_pos h4, if_neg h8]
  · intro data h3
    unfold detect_image_type
    rw [if_pos h3]
  · intro data h4
    have h3 : data.take 3 = [0x89, 0x50, 0x4e] := by
      rw [← take_of_take data 3 4 (by omega), h4]; rfl
    unfold detect_image_type
    rw [if_neg (by rw [h3]; decide), if_pos h4]
  · intro data h6
    rcases h6 with h6 | h6
    · have h3 : data.take 3 = [0x47, 0x49, 0x46] := by
        rw [← take_of_take data 3 6 (by omega), h6]; rfl
      have h4 : data.take 4 = [0x47, 0x49, 0x46, 0x38] := by
        rw [← take_of_take data 4 6 (by omega), h6]; rfl
      unfold detect_image_type
      rw [if_neg (by rw [h3]; decide), if_neg (by rw [h4]; decide), if_pos h6]
    · have h3 : data.take 3 = [0x47, 0x49, 0x46] := by
        rw [← take_of_take data 3 6 (by omega), h6]; rfl
      have h4 : data.take 4 = [0x47, 0x49, 0x46, 0x38] := by
        rw [← take_of_take data 4 6 (by omega), h6]; rfl
      have h87 : data.take 6 ≠ [0x47, 0x49, 0x46, 0x38, 0x37, 0x61] := by
        rw [h6]; decide
      unfold detect_image_type
      rw [if_neg (by rw [h3]; decide), if_neg (by rw [h4]; decide), if_neg h87, if_pos h6]

/-- Witness for C6 at concrete byte arrays of each signature family. -/
theorem spec_C6_witness :
    detect_image_type [0x52, 0x49, 0x46, 0x46, 0, 0, 0, 0, 0x41, 0x56, 0x49, 0x20] = none ∧
    detect_image_type [0xff, 0xd8, 0xff, 0xe0] = some "jpg".data ∧
    detect_image_type [0x89, 0x50, 0x4e, 0x47, 0x0d, 0x0a] = some "png".data ∧
    detect_image_type [0x47, 0x49, 0x46, 0x38, 0x39, 0x61] = some "gif".data :=
  ⟨spec_C6.2.1 _ (by decide) (by decide),
   spec_C6.2.2.1 _ (by decide),
   spec_C6.2.2.2.1 _ (by decide),
   spec_C6.2.2.2.2 _ (Or.inr (by decide))⟩

/-- Claim C7: for every buffer starting with the PNG signature and long
enough to carry them, `get_image_dimensions` returns exactly the two
4-byte big-endian integers at offsets 16 and 20; in particular
`(640, 100)` for the minimal 640x100 IHDR instance. -/
theorem spec_C7 :
    (∀ data : List Nat, data.take 4 = [0x89, 0x50, 0x4e, 0x47] → 24 ≤ data.length →
      get_image_dimensions data =
        (be4 ((data.drop 16).take 4), be4 ((data.drop 20).take 4))) ∧
    get_image_dimensions pngC7 = (640, 100) := by
  constructor
  · intro data h4 hlen
    have ht4 : (data.take 32).take 4 = data.take 4 := by
      rw [List.take_take]
      congr 1
    have e1 : ((data.take 32).drop 16).take 4 = (data.drop 16).take 4 := by
      rw [List.drop_take, List.take_take]
      congr 1
    have e2 : ((data.take 32).drop 20).take 4 = (data.drop 20).take 4 := by
      rw [List.drop_take, List.take_take]
      congr 1
    unfold get_image_dimensions
    rw [ht4, if_pos h4, if_pos hlen, e1, e2]
  · decide

/-- Witness for C7: the general statement applied at the concrete
640x100 PNG header. -/
theorem spec_C7_witness :
    get_image_dimensions pngC7 =
      (be4 ((pngC7.drop 16).take 4), be4 ((pngC7.drop 20).take 4)) :=
  spec_C7.1 pngC7 (by decide) (by decide)

/-! ### Claim C8: parse failures return unknown, never raise -/

/-- Claim C8: on any input where parsing fails the sniffer returns
normally with `(0, 0)` and `detect_image_type` returns `None`:
(1) no recognized signature means `None`; (2) no recognized signature
means dimensions `(0, 0)`; (3) a PNG prefix on a buffer shorter than 24
bytes means `(0, 0)` (the `struct.error` is swallowed); (4) a JPEG
prefix whose marker scan finds no SOF means `(0, 0)`; (5) a GIF prefix
on a buffer shorter than 10 bytes means `(0, 0)`.  Both functions are
total (modelled as total Lean functions): no input raises. -/
theorem spec_C8 :
    (∀ data : List Nat,
      data.take 3 ≠ [0xff, 0xd8, 0xff] → data.take 4 ≠ [0x89, 0x50, 0x4e, 0x47] →
      data.take 6 ≠ [0x47, 0x49, 0x46, 0x38, 0x37, 0x61] →
      data.take 6 ≠ [0x47, 0x49, 0x46, 0x38, 0x39, 0x61] →
      data.take 4 ≠ [0x52, 0x49, 0x46, 0x46] →
      detect_image_type data = none) ∧
    (∀ data : List Nat,
      data.take 4 ≠ [0x89, 0x50, 0x4e, 0x47] → data.take 2 ≠ [0xff, 0xd8] →
      data.take 3 ≠ [0x47, 0x49, 0x46] →
      get_image_dimensions data = (0, 0)) ∧
    (∀ data : List Nat, data.take 4 = [0x89, 0x50, 0x4e, 0x47] → data.length < 24 →
      get_image_dimensions data = (0, 0)) ∧
    (∀ data : List Nat, data.take 4 ≠ [0x89, 0x50, 0x4e, 0x47] →
      data.take 2 = [0xff, 0xd8] → jpegScan data 2 = none →
      get_image_dimensions data = (0, 0)) ∧
    (∀ data : List Nat, data.take 3 = [0x47, 0x49, 0x46] → data.length < 10 →
      get_image_dimensions data = (0, 0)) := by
  have take_of_take : ∀ (data : List Nat) (m n : Nat), m ≤ n →
      (data.take n).take m = data.take m := by
    intro data m n h
    rw [List.take_take, Nat.min_eq_left h]
  refine ⟨?_, ?_, ?_, ?_, ?_⟩
  · intro data n1 n2 n3 n4 n5
    unfold detect_image_type
    rw [if_neg n1, if_neg n2, if_neg n3, if_neg n4, if_neg n5]
  · intro data n1 n2 n3
    unfold get_image_dimensions
    rw [take_of_take data 4 32 (by omega), if_neg n1, if_neg n2,
      take_of_take data 3 32 (by omega)]
    simp only []
    rw [if_neg n3]
  · intro data h4 hlen
    unfold get_image_dimensions
    rw [take_of_take data 4 32 (by omega), if_pos h4, if_neg (by omega)]
  · intro data n1 h2 hscan
    unfold get_image_dimensions
    have n3 : data.take 3 ≠ [0x47, 0x49, 0x46] := by
      intro h
      have e : (data.take 3).take 2 = data.take 2 := take_of_take data 2 3 (by omega)
      rw [h, h2] at e
      exact absurd e (by decide)
    rw [take_of_take data 4 32 (by omega), if_neg n1, if_pos h2, hscan,
      take_of_take data 3 32 (by omega)]
    simp only []
    rw [if_neg n3]
  · intro data h3 hlen
    have n1 : data.take 4 ≠ [0x89, 0x50, 0x4e, 0x47] := by
      intro h
      have e : (data.take 4).take 3 = data.take 3 := take_of_take data 3 4 (by omega)
      rw [h, h3] at e
      exact absurd e (by decide)
    have n2 : data.take 2 ≠ [0xff, 0xd8] := by
      intro h
      have e : (data.take 3).take 2 = data.take 2 := take_of_take data 2 3 (by omega)
      rw [h3, h] at e
      exact absurd e (by decide)
    unfold get_image_dimensions
    rw [take_of_take data 4 32 (by omega), if_neg n1, if_neg n2,
      take_of_take data 3 32 (by omega)]
    simp only []
    rw [if_pos h3, if_neg (by omega)]

/-- Witness for C8: each failure mode evaluated at a concrete buffer. -/
theorem spec_C8_witness :
    detect_image_type [0] = none ∧
    get_image_dimensions [0] = (0, 0) ∧
    get_image_dimensions [0x89, 0x50, 0x4e, 0x47] = (0, 0) ∧
    get_image_dimensions [0xff, 0xd8, 0xff, 0xe0] = (0, 0) ∧
    get_image_dimensions [0x47, 0x49, 0x46] = (0, 0) :=
  ⟨spec_C8.1 _ (by decide) (by decide) (by decide) (by decide) (by decide),
   spec_C8.2.1 _ (by decide) (by decide) (by decide),
   spec_C8.2.2.1 _ (by decide) (by decide),
   spec_C8.2.2.2.1 _ (by decide) (by decide) (by decide),
   spec_C8.2.2.2.2 _ (by decide) (by decide)⟩

/-- Claim C9: every manifest written at the end of a run has
`banners_downloaded` equal to the number of successful download
outcomes in its image list (the list holds exactly the successful
outcomes, so that count is its length), and `total_images_found` equal
to the number of unique candidates found before classification
filtering. -/
theorem spec_C9 :
    ∀ (dl : Nat → Img → Option DMeta) (all_found : List Img) (all_images : Bool)
      (m : Manifest), scrape_banners dl all_found all_images = some m →
      m.banners_downloaded = m.images.length ∧
      m.total_images_found = (dedup all_found).length := by
  intro dl all_found all_images m h
  unfold scrape_banners at h
  split at h
  · exact Option.noConfusion h
  · have hm := Option.some.inj h
    subst hm
    exact ⟨rfl, rfl⟩

/-- Witness for C9 at the concrete one-candidate run. -/
theorem spec_C9_witness :
    mC9.banners_downloaded = mC9.images.length ∧
    mC9.total_images_found = (dedup [exC9]).length :=
  spec_C9 dlC9 [exC9] false mC9 (by decide)

theorem natDigitsFuel_lt10 :
    ∀ (fuel n : Nat), n ≤ fuel ∨ n < 10 → ∀ d ∈ natDigitsFuel fuel n, d < 10 := by
  intro fuel
  induction fuel with
  | zero =>
    intro n hn d hd
    have : n < 10 := by omega
    unfold natDigitsFuel at hd
    rw [List.mem_singleton] at hd
    omega
  | succ fuel ih =>
    intro n hn d hd
    unfold natDigitsFuel at hd
    split at hd
    · rw [List.mem_singleton] at hd; omega
    · rename_i h10
      rw [List.mem_append] at hd
      rcases hd with hd | hd
      · exact ih (n / 10) (Or.inl (by omega)) d hd
      · rw [List.mem_singleton] at hd
        subst hd
        exact Nat.mod_lt _ (by omega)

theorem natDigitsFuel_val :
    ∀ (fuel n : Nat), n ≤ fuel ∨ n < 10 →
      (natDigitsFuel fuel n).foldl (fun x d => 10 * x + d) 0 = n := by
  intro fuel
  induction fuel with
  | zero =>
    intro n hn
    have hn0 : n < 10 := by omega
    unfold natDigitsFuel
    show 10 * 0 + n = n
    omega
  | succ fuel ih =>
    intro n hn
    unfold natDigitsFuel
    split
    · show 10 * 0 + n = n
      omega
    · rename_i h10
      rw [List.foldl_append, ih (n / 10) (Or.inl (by omega))]
      show 10 * (n / 10) + n % 10 = n
      omega

theorem digitChar_isDigit : ∀ d, d < 10 → (digitChar d).isDigit = true := by decide

theorem digitChar_val : ∀ d, d < 10 → (digitChar d).toNat - 48 = d := by decide

theorem digitsValue_map_digitChar :
    ∀ (ds : List Nat), (∀ d ∈ ds, d < 10) → ∀ a : Nat,
      (ds.map digitChar).foldl (fun x c => 10 * x + (c.toNat - 48)) a =
        ds.foldl (fun x d => 10 * x + d) a := by
  intro ds
  induction ds with
  | nil => intro _ _; rfl
  | cons d rest ih =>
    intro hds a
    rw [List.map_cons, List.foldl_cons, List.foldl_cons,
      digitChar_val d (hds d (List.mem_cons_self d rest))]
    exact ih (fun x hx => hds x (List.mem_cons_of_mem _ hx)) _

theorem digitsValue_zeros (k : Nat) (cs : Str) :
    digitsValue (List.replicate k '0' ++ cs) = digitsValue cs := by
  induction k with
  | zero => rfl
  | succ k ih =>
    unfold digitsValue at ih ⊢
    rw [List.replicate_succ, List.cons_append, List.foldl_cons]
    have h0 : 10 * 0 + ('0'.toNat - 48) = 0 := by decide
    rw [h0]
    exact ih

theorem digitsValue_pad3 (n : Nat) : digitsValue (pad3 n) = n := by
  unfold pad3
  rw [digitsValue_zeros]
  unfold digitsValue
  rw [digitsValue_map_digitChar (natDigits n)
    (natDigitsFuel_lt10 n n (Or.inl (Nat.le_refl n))) 0]
  exact natDigitsFuel_val n n (Or.inl (Nat.le_refl n))

theorem pad3_all_digits (n : Nat) : ∀ c ∈ pad3 n, c.isDigit = true := by
  intro c hc
  unfold pad3 at hc
  rw [List.mem_append] at hc
  rcases hc with hc | hc
  · rw [List.eq_of_mem_replicate hc]
    decide
  · rw [List.mem_map] at hc
    obtain ⟨d, hd, rfl⟩ := hc
    exact digitChar_isDigit d (natDigitsFuel_lt10 n n (Or.inl (Nat.le_refl n)) d hd)

theorem takeWhile_append_stop (P : Char → Bool) :
    ∀ (xs ys : Str) (y : Char), (∀ x ∈ xs, P x = true) → P y = false →
      (xs ++ y :: ys).takeWhile P = xs := by
  intro xs
  induction xs with
  | nil =>
    intro ys y _ hy
    rw [List.nil_append, List.takeWhile_cons, hy]
    rfl
  | cons x rest ih =>
    intro ys y hall hy
    rw [List.cons_append, List.takeWhile_cons, hall x (List.mem_cons_self x rest)]
    simp only [if_true]
    rw [ih ys y (fun z hz => hall z (List.mem_cons_of_mem _ hz)) hy]

theorem pathIdx_core (siteDir : Str) (i : Nat) (h8 tail : Str) :
    pathIdx siteDir (imgPathCore siteDir i h8 ++ tail) = i := by
  unfold pathIdx imgPathCore
  rw [List.append_assoc, List.drop_left'
    (by rw [List.length_append]; rfl), List.append_assoc, List.cons_append]
  rw [takeWhile_append_stop Char.isDigit (pad3 i) (h8 ++ tail) '_'
    (pad3_all_digits i) (by decide)]
  exact digitsValue_pad3 i

/-- Paths embedding different sequence indices differ. -/
theorem imgPath_ne_of_idx (siteDir : Str) {i j : Nat} (h8a h8b ta tb : Str)
    (hij : i ≠ j) :
    imgPathCore siteDir i h8a ++ ta ≠ imgPathCore siteDir j h8b ++ tb := by
  intro h
  have := congrArg (pathIdx siteDir) h
  rw [pathIdx_core, pathIdx_core] at this
  exact hij this

theorem get_extension_mem (c : Str) :
    get_extension c ∈ [".jpg".data, ".png".data, ".gif".data, ".webp".data] := by
  unfold get_extension
  split_ifs <;> decide

/-- An image path never coincides with a metadata path of the same
iteration. -/
theorem imgPath_ne_json (siteDir : Str) (i : Nat) (h8 ext : Str)
    (hext : ext ∈ [".jpg".data, ".png".data, ".gif".data, ".webp".data]) :
    imgPathCore siteDir i h8 ++ ext ≠ imgPathCore siteDir i h8 ++ ".json".data := by
  intro h
  have heq : ext = ".json".data := List.append_cancel_left h
  simp only [List.mem_cons, List.not_mem_nil, or_false] at hext
  rcases hext with h1 | h1 | h1 | h1 <;> rw [h1] at heq <;> exact absurd heq (by decide)

theorem fsGet_cons (k2 : Str) (v : List Nat) (rest : Fs) (p : Str) :
    fsGet ((k2, v) :: rest) p = if k2 = p then some v else fsGet rest p := rfl

theorem fsGet_remove_ne (fs : Fs) (k p : Str) (h : k ≠ p) :
    fsGet (fsRemove fs k) p = fsGet fs p := by
  induction fs with
  | nil => rfl
  | cons q rest ih =>
    obtain ⟨k2, v⟩ := q
    unfold fsRemove at ih ⊢
    rw [List.filter_cons]
    by_cases hk : k2 = k
    · rw [show decide ((k2, v).1 ≠ k) = false by simp [hk]]
      simp only [Bool.false_eq_true, if_false]
      rw [ih, fsGet_cons, if_neg (show ¬ k2 = p by rw [hk]; exact h)]
    · rw [show decide ((k2, v).1 ≠ k) = true by simp [hk]]
      simp only [if_true]
      rw [fsGet_cons, fsGet_cons, ih]

theorem fsGet_set_ne (fs : Fs) (k p : Str) (v : List Nat) (h : k ≠ p) :
    fsGet (fsSet fs k v) p = fsGet fs p := by
  unfold fsSet
  rw [fsGet_cons, if_neg h]
  exact fsGet_remove_ne fs k p h

theorem fsGet_set_self (fs : Fs) (k : Str) (v : List Nat) :
    fsGet (fsSet fs k v) k = some v := by
  unfold fsSet
  rw [fsGet_cons, if_pos rfl]

theorem download_step_inv (fetch : Str → Option FetchResult) (md5hex : Str → Str)
    (pilVerify : List Nat → Bool) (maxFileSize : Nat) (siteDir : Str)
    (i : Nat) (b : BannerData) (files : List Str) (fs : Fs)
    (hinv : DlInv pilVerify siteDir i files fs) :
    DlInv pilVerify siteDir (i + 1)
      (download_step fetch md5hex pilVerify maxFileSize siteDir i b files fs).1
      (download_step fetch md5hex pilVerify maxFileSize siteDir i b files fs).2 := by
  have weaken : DlInv pilVerify siteDir (i + 1) files fs := by
    intro p hp
    obtain ⟨⟨j, h8, ext, hj, hext, hp'⟩, hgood⟩ := hinv p hp
    exact ⟨⟨j, h8, ext, by omega, hext, hp'⟩, hgood⟩
  cases hf : fetch b.url with
  | none =>
    simp only [download_step, hf]
    exact weaken
  | some r =>
    simp only [download_step, hf]
    split
    · exact weaken
    · split
      · exact weaken
      · split
        · rename_i hval
          dsimp only
          intro p hp
          rw [List.mem_append, List.mem_singleton] at hp
          rcases hp with hp | hp
          · obtain ⟨⟨j, h8, ext, hj, hext, hp'⟩, bb, hb1, hb2, hb3⟩ := hinv p hp
            refine ⟨⟨j, h8, ext, by omega, hext, hp'⟩, bb, ?_, hb2, hb3⟩
            have hMP : imgPathCore siteDir i ((md5hex b.url).take 8) ++ ".json".data ≠ p := by
              rw [hp']
              exact imgPath_ne_of_idx siteDir _ _ _ _ (by omega : i ≠ j)
            have hFP : imgPathCore siteDir i ((md5hex b.url).take 8) ++ get_extension r.ctype ≠ p := by
              rw [hp']
              exact imgPath_ne_of_idx siteDir _ _ _ _ (by omega : i ≠ j)
            rw [fsGet_set_ne _ _ _ _ hMP, fsGet_set_ne _ _ _ _ hFP]
            exact hb1
          · subst hp
            refine ⟨⟨i, (md5hex b.url).take 8, get_extension r.ctype, by omega,
              get_extension_mem r.ctype, rfl⟩, ?_⟩
            have hne : imgPathCore siteDir i ((md5hex b.url).take 8) ++ ".json".data ≠
                imgPathCore siteDir i ((md5hex b.url).take 8) ++ get_extension r.ctype :=
              Ne.symm (imgPath_ne_json siteDir i _ _ (get_extension_mem r.ctype))
            rw [fsGet_set_ne _ _ _ _ hne, fsGet_set_self]
            have hval2 := hval
            unfold validate_image at hval2
            rw [fsGet_set_self] at hval2
            dsimp only at hval2
            have hsplit := Bool.and_eq_true_iff.mp hval2
            exact ⟨r.body, rfl, hsplit.1, of_decide_eq_true hsplit.2⟩
        · rename_i hval
          dsimp only
          intro p hp
          obtain ⟨⟨j, h8, ext, hj, hext, hp'⟩, bb, hb1, hb2, hb3⟩ := hinv p hp
          refine ⟨⟨j, h8, ext, by omega, hext, hp'⟩, bb, ?_, hb2, hb3⟩
          have hFP : imgPathCore siteDir i ((md5hex b.url).take 8) ++ get_extension r.ctype ≠ p := by
            rw [hp']
            exact imgPath_ne_of_idx siteDir _ _ _ _ (by omega : i ≠ j)
          rw [fsGet_remove_ne _ _ _ hFP, fsGet_set_ne _ _ _ _ hFP]
          exact hb1

theorem download_loop_inv (fetch : Str → Option FetchResult) (md5hex : Str → Str)
    (pilVerify : List Nat → Bool) (maxFileSize : Nat) (siteDir : Str) :
    ∀ (banners : List BannerData) (i : Nat) (files : List Str) (fs : Fs),
      DlInv pilVerify siteDir i files fs →
      ∀ p ∈ (download_loop fetch md5hex pilVerify maxFileSize siteDir i banners files fs).1,
        ∃ b, fsGet (download_loop fetch md5hex pilVerify maxFileSize siteDir i banners files fs).2 p
            = some b ∧ pilVerify b = true ∧ 1000 < b.length := by
  intro banners
  induction banners with
  | nil =>
    intro i files fs hinv p hp
    exact (hinv p hp).2
  | cons b rest ih =>
    intro i files fs hinv p hp
    exact ih (i + 1) _ _
      (download_step_inv fetch md5hex pilVerify maxFileSize siteDir i b files fs hinv) p hp

/-- Claim C10: in the `banner_extractor.py` download loop, a persisted
file that fails post-download validation (PIL verification plus a
strict 1000-byte size floor) is unlinked and excluded from the result,
so every path in the list `_download_banners` returns refers to a file
present in the final directory state whose bytes passed PIL
verification and exceed 1000 bytes. -/
theorem spec_C10 :
    ∀ (fetch : Str → Option FetchResult) (md5hex : Str → Str)
      (pilVerify : List Nat → Bool) (maxFileSize : Nat) (siteDir : Str)
      (banners : List BannerData) (p : Str),
      p ∈ (download_banners fetch md5hex pilVerify maxFileSize siteDir banners).1 →
      ∃ b, fsGet (download_banners fetch md5hex pilVerify maxFileSize siteDir banners).2 p
          = some b ∧ pilVerify b = true ∧ 1000 < b.length := by
  intro fetch md5hex pilVerify maxFileSize siteDir banners p hp
  exact download_loop_inv fetch md5hex pilVerify maxFileSize siteDir banners 1 [] []
    (by intro q hq; exact absurd hq (List.not_mem_nil q)) p hp

set_option maxRecDepth 100000 in
/-- Witness for C10: the concrete run stores
`out/banner_001_aabbccdd.png`, returns it, and its bytes validate. -/
theorem spec_C10_witness :
    ∃ b, fsGet (download_banners c10fetch c10md5 c10pil 10485760 ("out".data) c10banners).2
        ("out/banner_001_aabbccdd.png".data) = some b ∧
      c10pil b = true ∧ 1000 < b.length :=
  spec_C10 c10fetch c10md5 c10pil 10485760 ("out".data) c10banners
    ("out/banner_001_aabbccdd.png".data) (by decide)

